import Mathlib

/-!
Verification of the frigate-tools recording locator, calendar filter and
adaptive timelapse strategy selector.

The definitions below are a shallow embedding of the Python sources
`src/frigate_tools/file_list.py`, `src/frigate_tools/timelapse.py` and
`src/frigate_tools/clip.py`:

* Python `int(...)` parsing is embedded as `pyInt?` (returns `none` where
  Python raises `ValueError`).
* Python `datetime` objects are embedded as `PyDateTime` records; the
  `datetime(...)` constructor's validity checks are `validDateTime`, and
  datetime comparison is the field-lexicographic order `PyDateTime.pyLt`.
* The filesystem tree `recordings/<date>/<hour>/<camera>/<file>.mp4` is
  embedded as a list of directory records; directory iteration order is
  modelled with `List.insertionSort` by name, mirroring Python's `sorted`.
* External processes (ffprobe duration probe, ffmpeg encode runs) are
  embedded as oracle function parameters.
* Python floats are embedded as exact rationals `ℚ`.
-/

/-- Characters stripped by Python `int(str)` before parsing. -/
def isPyWs (c : Char) : Bool :=
  c = ' ' || c = '\t' || c = '\n' || c = '\r' || c = '\x0b' || c = '\x0c'

/-- Digit run with optional single underscores between digits, as accepted by
Python `int`; the first character is checked by the caller. -/
def pyDigitsAux : List Char → Nat → Option Nat
  | [], acc => some acc
  | '_' :: c :: rest, acc =>
    if c.isDigit then pyDigitsAux rest (acc * 10 + (c.toNat - 48)) else none
  | ['_'], _ => none
  | c :: rest, acc =>
    if c.isDigit then pyDigitsAux rest (acc * 10 + (c.toNat - 48)) else none

/-- Embedding of Python `int(s)`: strips whitespace, allows one sign, then
digits (with underscore grouping); `none` where Python raises `ValueError`. -/
def pyInt? (s : String) : Option Int :=
  let cs := (s.data.dropWhile isPyWs).reverse.dropWhile isPyWs |>.reverse
  match cs with
  | '+' :: c :: rest =>
    if c.isDigit then (pyDigitsAux (c :: rest) 0).map Int.ofNat else none
  | '-' :: c :: rest =>
    if c.isDigit then (pyDigitsAux (c :: rest) 0).map (fun n => -(n : Int)) else none
  | c :: rest =>
    if c.isDigit then (pyDigitsAux (c :: rest) 0).map Int.ofNat else none
  | [] => none

/-- Gregorian leap year, as in Python's `calendar`/`datetime`. -/
def isLeap (y : Nat) : Bool :=
  y % 4 = 0 && (y % 100 ≠ 0 || y % 400 = 0)

/-- Days in a month of the proleptic Gregorian calendar. -/
def daysInMonth (y m : Nat) : Nat :=
  if m = 2 then (if isLeap y then 29 else 28)
  else if m = 4 || m = 6 || m = 9 || m = 11 then 30
  else 31

/-- Cumulative day count before month `m` in a non-leap year. -/
def daysBeforeMonth (m : Nat) : Nat :=
  [0, 31, 59, 90, 120, 151, 181, 212, 243, 273, 304, 334].getD (m - 1) 0

/-- A Python `datetime.date`. -/
structure PyDate where
  year : Nat
  month : Nat
  day : Nat
deriving DecidableEq, Repr

/-- A Python `datetime.datetime` (naive). -/
structure PyDateTime where
  year : Nat
  month : Nat
  day : Nat
  hour : Nat
  minute : Nat
  second : Nat
deriving DecidableEq, Repr

/-- `datetime.date()` projection. -/
def PyDateTime.dateOf (t : PyDateTime) : PyDate :=
  ⟨t.year, t.month, t.day⟩

/-- Python `date.toordinal()`: day number with `0001-01-01` mapped to 1. -/
def PyDate.toOrdinal (d : PyDate) : Nat :=
  let py := d.year - 1
  365 * py + py / 4 - py / 100 + py / 400
    + daysBeforeMonth d.month
    + (if 2 < d.month && isLeap d.year then 1 else 0)
    + d.day

/-- Python `datetime.weekday()`: Monday = 0 … Sunday = 6. -/
def PyDateTime.pyWeekday (t : PyDateTime) : Nat :=
  (t.dateOf.toOrdinal + 6) % 7

/-- Python `date` comparison `<` (field-lexicographic). -/
def PyDate.pyLt (a b : PyDate) : Bool :=
  decide (a.year < b.year) ||
    (decide (a.year = b.year) &&
      (decide (a.month < b.month) ||
        (decide (a.month = b.month) && decide (a.day < b.day))))

/-- Python `date` comparison `<=`. -/
def PyDate.pyLe (a b : PyDate) : Bool :=
  a.pyLt b || decide (a = b)

/-- Python `datetime` comparison `<` (field-lexicographic). -/
def PyDateTime.pyLt (a b : PyDateTime) : Bool :=
  decide (a.year < b.year) ||
    (decide (a.year = b.year) &&
      (decide (a.month < b.month) ||
        (decide (a.month = b.month) &&
          (decide (a.day < b.day) ||
            (decide (a.day = b.day) &&
              (decide (a.hour < b.hour) ||
                (decide (a.hour = b.hour) &&
                  (decide (a.minute < b.minute) ||
                    (decide (a.minute = b.minute) &&
                      decide (a.second < b.second))))))))))

/-- Python `datetime` comparison `>=`. -/
def PyDateTime.pyGe (a b : PyDateTime) : Bool :=
  b.pyLt a || decide (a = b)

/-- `date + timedelta(days=1)` on the Gregorian calendar. -/
def nextDate (d : PyDate) : PyDate :=
  if d.day < daysInMonth d.year d.month then ⟨d.year, d.month, d.day + 1⟩
  else if d.month < 12 then ⟨d.year, d.month + 1, 1⟩
  else ⟨d.year + 1, 1, 1⟩

/-- The `while current_date <= end_date` loop of `find_recording_files`,
with explicit fuel (an upper bound on the number of iterations). -/
def dateRangeAux : Nat → PyDate → PyDate → List PyDate
  | 0, _, _ => []
  | fuel + 1, cur, stop =>
    if cur.pyLe stop then cur :: dateRangeAux fuel (nextDate cur) stop else []

/-- Calendar dates from `s` to `e` inclusive, as iterated by
`find_recording_files`. `366 * (e.year + 1 - s.year)` over-approximates the
iteration count, so the fuel never runs out before the loop guard fails. -/
def dateRange (s e : PyDate) : List PyDate :=
  dateRangeAux (366 * (e.year + 1 - s.year)) s e

/-! ## Calendar filter (`file_list.py`) -/

/-- `HourRange` from `file_list.py`: a range of hours to skip; may wrap
around midnight. The source field `end` is called `stop` here (`end` is a
Lean keyword). -/
structure HourRange where
  start : Int
  stop : Int
deriving DecidableEq, Repr

/-- `HourRange.contains`: inclusive on both ends; wrapping when
`start > stop` (source: `start > end`). -/
def HourRange.contains (r : HourRange) (hour : Int) : Bool :=
  if r.start ≤ r.stop then
    decide (r.start ≤ hour) && decide (hour ≤ r.stop)
  else
    decide (hour ≥ r.start) || decide (hour ≤ r.stop)

/-- `should_skip_timestamp`: converts the UTC timestamp to local time via the
host-timezone conversion `tz` (embedded as a function parameter, since the
host's DST rules are an external dependency), then tests weekday membership
and hour ranges. The Python `set` of weekdays is modelled as a list, with
`set` membership as list membership. -/
def should_skip_timestamp (tz : PyDateTime → PyDateTime) (ts : PyDateTime)
    (skip_days : List Nat) (skip_hours : List HourRange) : Bool :=
  let local_ts := tz ts
  if skip_days.contains local_ts.pyWeekday then true
  else skip_hours.any (fun r => r.contains (local_ts.hour : Int))

/-! ## Timestamp parsing (`file_list.py`) -/

/-- The regex `^(\d{2})\.(\d{2})\.mp4$` applied to a filename, returning the
`(minute, second)` groups as integers. -/
def matchFilename (fn : String) : Option (Nat × Nat) :=
  match fn.data with
  | [c1, c2, '.', c3, c4, '.', 'm', 'p', '4'] =>
    if c1.isDigit && c2.isDigit && c3.isDigit && c4.isDigit then
      some (10 * (c1.toNat - 48) + (c2.toNat - 48),
            10 * (c3.toNat - 48) + (c4.toNat - 48))
    else none
  | _ => none

/-- Python `str.split(sep)` for a one-character separator (keeps empty
parts, as Python does). Structural so that it evaluates in the kernel. -/
def splitOnChar (sep : Char) : List Char → List (List Char)
  | [] => [[]]
  | c :: rest =>
    if c = sep then [] :: splitOnChar sep rest
    else
      match splitOnChar sep rest with
      | [] => [[c]]
      | g :: gs => (c :: g) :: gs

/-- `date_dir.split("-")`. -/
def pySplitDash (s : String) : List String :=
  (splitOnChar '-' s.data).map String.mk

/-- `year, month, day = map(int, date_dir.split("-"))` and
`hour = int(hour_dir)`; `none` where Python raises `ValueError`
(wrong number of parts, or a part that is not an integer). -/
def parse_components (date_dir hour_dir : String) : Option (Int × Int × Int × Int) :=
  match pySplitDash date_dir with
  | [ys, ms, ds] =>
    match pyInt? ys, pyInt? ms, pyInt? ds, pyInt? hour_dir with
    | some y, some mo, some d, some h => some (y, mo, d, h)
    | _, _, _, _ => none
  | _ => none

/-- Validity checks performed by the Python `datetime(...)` constructor
(`ValueError` outside these bounds). -/
def validDateTime (y mo d h : Int) (mi s : Nat) : Bool :=
  decide (1 ≤ y) && decide (y ≤ 9999) &&
  decide (1 ≤ mo) && decide (mo ≤ 12) &&
  decide (1 ≤ d) && decide (d ≤ (daysInMonth y.toNat mo.toNat : Int)) &&
  decide (0 ≤ h) && decide (h ≤ 23) &&
  decide (mi ≤ 59) && decide (s ≤ 59)

/-- `parse_file_timestamp` from `file_list.py`: pattern-match the filename,
parse the integer components, build the datetime; `none` on any failure
(the source catches `ValueError`/`AttributeError` and returns `None`). -/
def parse_file_timestamp (date_dir hour_dir filename : String) : Option PyDateTime :=
  match matchFilename filename with
  | none => none
  | some (minute, second) =>
    match parse_components date_dir hour_dir with
    | none => none
    | some (y, mo, d, h) =>
      if validDateTime y mo d h minute second then
        some ⟨y.toNat, mo.toNat, d.toNat, h.toNat, minute, second⟩
      else none

/-! ## Recording tree model and locator (`file_list.py`) -/

/-- One hour directory `recordings/<date>/<HH>/`: its name and, per camera
subdirectory, the contained filenames. Only directories are modelled at the
hour level (the source skips non-directories with `is_dir()`). -/
structure HourDir where
  name : String
  cameras : List (String × List String)
deriving DecidableEq, Repr

/-- One date directory `recordings/<YYYY-MM-DD>/`. -/
structure DateDir where
  name : String
  hours : List HourDir
deriving DecidableEq, Repr

/-- The `recordings/` tree: the date directories it contains. A missing
`recordings/` directory is the empty tree. -/
abbrev RecTree := List DateDir

/-- A found segment file, identified by its path components
`(dateDir, hourDir, camera, filename)` below `recordings/`. -/
abbrev SegPath := String × String × String × String

/-- Path existence lookup for a date directory (names are unique on a real
filesystem; the model takes the first match). -/
def lookupDate : RecTree → String → Option (List HourDir)
  | [], _ => none
  | d :: rest, n => if d.name = n then some d.hours else lookupDate rest n

/-- Path existence lookup for a camera directory inside an hour directory. -/
def lookupCam : List (String × List String) → String → Option (List String)
  | [], _ => none
  | c :: rest, n => if c.1 = n then some c.2 else lookupCam rest n

/-- The `*.mp4` glob pattern on a filename. -/
def endsWithMp4 (s : String) : Bool :=
  match s.data.reverse with
  | '4' :: 'p' :: 'm' :: '.' :: _ => true
  | _ => false

/-- Zero-pad a decimal rendering to `w` characters. -/
def padLeft (w : Nat) (n : Nat) : String :=
  let s := toString n
  String.mk (List.replicate (w - s.length) '0') ++ s

/-- `current_date.strftime("%Y-%m-%d")`. -/
def formatDate (d : PyDate) : String :=
  padLeft 4 d.year ++ "-" ++ padLeft 2 d.month ++ "-" ++ padLeft 2 d.day

/-- Code-point lexicographic `<=` on strings, the order Python uses to
compare `str` (and hence to sort same-directory paths). -/
def charListLe : List Char → List Char → Bool
  | [], _ => true
  | _ :: _, [] => false
  | a :: as, b :: bs =>
    if a.toNat < b.toNat then true
    else if b.toNat < a.toNat then false
    else charListLe as bs

/-- String-level wrapper for `charListLe`. -/
def strLeB (a b : String) : Bool :=
  charListLe a.data b.data

/-- Name-sorted directory listing, mirroring Python `sorted(...)` over
paths that share a parent directory. -/
def sortHours (hs : List HourDir) : List HourDir :=
  hs.insertionSort (fun a b => strLeB a.name b.name = true)

/-- Name-sorted file listing, mirroring `sorted(camera_path.glob("*.mp4"))`. -/
def sortNames (ns : List String) : List String :=
  ns.insertionSort (fun a b => strLeB a b = true)

/-- Files contributed by one iterated calendar date in
`find_recording_files`. -/
def filesForDate (tz : PyDateTime → PyDateTime) (tree : RecTree) (camera : String)
    (start end_ : PyDateTime) (skip_days : List Nat) (skip_hours : List HourRange)
    (d : PyDate) : List SegPath :=
  match lookupDate tree (formatDate d) with
  | none => []
  | some hours =>
    (sortHours hours).flatMap (fun hd =>
      if (pyInt? hd.name).isSome then
        match lookupCam hd.cameras camera with
        | none => []
        | some files =>
          (sortNames (files.filter endsWithMp4)).filterMap (fun fn =>
            match parse_file_timestamp (formatDate d) hd.name fn with
            | none => none
            | some ts =>
              if ts.pyLt start || ts.pyGe end_ then none
              else if should_skip_timestamp tz ts skip_days skip_hours then none
              else some (formatDate d, hd.name, camera, fn))
      else [])

/-- `find_recording_files` from `file_list.py` (with the `skip_days or set()`
defaulting already applied): walk dates from `start.date()` to `end.date()`
inclusive, keep files whose parsed timestamp lies in `[start, end)` and is
not excluded by the calendar rules. -/
def find_recording_files (tz : PyDateTime → PyDateTime) (tree : RecTree)
    (camera : String) (start end_ : PyDateTime)
    (skip_days : List Nat) (skip_hours : List HourRange) : List SegPath :=
  (dateRange start.dateOf end_.dateOf).flatMap
    (filesForDate tz tree camera start end_ skip_days skip_hours)

/-- `find_recording_files` with its optional parameters, before the
`skip_days = skip_days or set()` defaulting (Python `or` yields the default
for both `None` and an empty collection, so `getD` is behaviourally exact). -/
def find_recording_files_opt (tz : PyDateTime → PyDateTime) (tree : RecTree)
    (camera : String) (start end_ : PyDateTime)
    (skip_days : Option (List Nat)) (skip_hours : Option (List HourRange)) : List SegPath :=
  find_recording_files tz tree camera start end_ (skip_days.getD []) (skip_hours.getD [])

/-- `find_overlapping_segments` from `clip.py`: the clip-mode segment finder,
which calls `find_recording_files` with `skip_days=None, skip_hours=None`. -/
def find_overlapping_segments (tz : PyDateTime → PyDateTime) (tree : RecTree)
    (camera : String) (start end_ : PyDateTime) : List SegPath :=
  find_recording_files_opt tz tree camera start end_ none none

/-! ## Strategy selector (`timelapse.py`, `create_timelapse`) -/

/-- The two strategy families selected by `create_timelapse`. -/
inductive StrategyKind
  | ConcatRetime
  | FrameExtract
deriving DecidableEq, Repr

/-- `avg_file_duration = sum(...) / len(...) if sample_durations else 10.0`.
Durations are exact rationals; the duration probe is an external process. -/
def avg_file_duration (sample_durations : List ℚ) : ℚ :=
  if sample_durations = [] then 10
  else sample_durations.sum / sample_durations.length

/-- The sampled-average segment duration computed by `create_timelapse`:
probe the first `min(5, len(input_files))` files. `probe` embeds
`get_video_duration` (which returns `0.0` when `ffprobe` fails or its
output is unparseable). -/
def create_timelapse_avg (probe : SegPath → ℚ) (input_files : List SegPath) : ℚ :=
  let sample_count := min 5 input_files.length
  let sample_durations := (input_files.take sample_count).map probe
  avg_file_duration sample_durations

/-- `speedup = source_duration / target_duration` with
`source_duration = len(input_files) * avg_file_duration`. -/
def speedup_of (probe : SegPath → ℚ) (input_files : List SegPath)
    (target_duration : ℚ) : ℚ :=
  (input_files.length : ℚ) * create_timelapse_avg probe input_files / target_duration

/-- The strategy family chosen by `create_timelapse`:
`use_frames = speedup >= 30.0`. -/
def create_timelapse_strategy (probe : SegPath → ℚ) (input_files : List SegPath)
    (target_duration : ℚ) : StrategyKind :=
  if 30 ≤ speedup_of probe input_files target_duration then
    StrategyKind.FrameExtract
  else StrategyKind.ConcatRetime

/-! ## Parallel frame-extraction sampling (`_create_timelapse_frames`) -/

/-- `frames_needed = int(target_duration * output_fps)`: Python `int()` on a
non-negative float truncates, i.e. takes the floor. -/
def frames_needed_of (target_duration output_fps : ℚ) : Int :=
  if 0 ≤ target_duration * output_fps then ⌊target_duration * output_fps⌋
  else ⌈target_duration * output_fps⌉

/-- `indices = [int(i * (n_files - 1) / (frames_needed - 1)) for i in
range(frames_needed)]`. For `frames_needed = 1` the loop body divides by
zero (Python raises `ZeroDivisionError`), embedded as `none`; for
`frames_needed = 0` the comprehension is empty and no division occurs. -/
def sampleIndices (n_files frames_needed : Nat) : Option (List Nat) :=
  if frames_needed = 0 then some []
  else if frames_needed = 1 then none
  else some ((List.range frames_needed).map
    (fun i => i * (n_files - 1) / (frames_needed - 1)))

/-- The file-selection step of `_create_timelapse_frames`, as the list of
input-file indices that will be processed: `extract_all = frames_needed >
len(input_files)`; sampling happens only when `not extract_all and
frames_needed < len(input_files)`, otherwise every file is processed. -/
def timelapse_frames_sampling (n_files frames_needed : Nat) : Option (List Nat) :=
  let extract_all := decide (frames_needed > n_files)
  if extract_all = false ∧ frames_needed < n_files then
    sampleIndices n_files frames_needed
  else some (List.range n_files)

/-! ## Hardware-acceleration fallback (`encode_timelapse`,
`encode_frames_to_video`) -/

/-- The `HWAccel` enum from `timelapse.py`. -/
inductive HWAccel
  | NONE
  | QSV
  | VAAPI
deriving DecidableEq, Repr

/-- `encode_timelapse` retry structure: `run hw` is the exit status of the
external ffmpeg encode (`true` = exit 0). Returns the sequence of attempted
acceleration modes and the final boolean result. Mirrors the source: on
failure with `hwaccel != HWAccel.NONE`, recurse once with
`hwaccel=HWAccel.NONE`; on failure with `NONE`, return `False`. -/
def encode_timelapse_run (run : HWAccel → Bool) (hw : HWAccel) :
    List HWAccel × Bool :=
  if run hw = false then
    if h : hw = HWAccel.NONE then ([hw], false)
    else
      let r := encode_timelapse_run run HWAccel.NONE
      (hw :: r.1, r.2)
  else ([hw], true)
termination_by (if hw = HWAccel.NONE then 0 else 1)
decreasing_by simp [h]

/-- Truthiness of `hwaccel and hwaccel != HWAccel.NONE` in
`encode_frames_to_video` (the parameter may be Python `None`). -/
def hwTruthyNotNone : Option HWAccel → Bool
  | none => false
  | some a => decide (a ≠ HWAccel.NONE)

/-- `encode_frames_to_video` retry structure, analogous to
`encode_timelapse_run`; the retry condition is
`if hwaccel and hwaccel != HWAccel.NONE`. -/
def encode_frames_to_video_run (run : Option HWAccel → Bool)
    (hw : Option HWAccel) : List (Option HWAccel) × Bool :=
  if run hw = false then
    if h : hwTruthyNotNone hw = true then
      let r := encode_frames_to_video_run run (some HWAccel.NONE)
      (hw :: r.1, r.2)
    else ([hw], false)
  else ([hw], true)
termination_by (if hwTruthyNotNone hw = true then 1 else 0)
decreasing_by cases hw <;> simp_all [hwTruthyNotNone]

/-! ## Concat manifest escaping (`_concat_batch`, `concat_clip`) -/

/-- `str(path).replace("'", "'\\''")`: each single quote becomes the
four-character sequence quote, backslash, quote, quote. -/
def escapeChars : List Char → List Char
  | [] => []
  | c :: rest =>
    if c = '\'' then '\'' :: '\\' :: '\'' :: '\'' :: escapeChars rest
    else c :: escapeChars rest

/-- String-level wrapper for the manifest path escaping. -/
def escapeSQ (s : String) : String :=
  String.mk (escapeChars s.data)

/-- The manifest line written per input file: `file '<escaped>'`
(without the trailing newline). -/
def manifest_line (p : String) : String :=
  "file '" ++ escapeSQ p ++ "'"

/-- The quoted field of the manifest line. -/
def manifest_quoted_field (p : String) : String :=
  "'" ++ escapeSQ p ++ "'"

/-- Shell single-quoting reader: concatenation of quoted `'...'` groups and
backslash-escaped characters outside quotes. `mode = true` means inside a
quoted group (where only the closing quote is special); `mode = false`
means outside (where backslash escapes the next character and a quote opens
a group). `none` on an unterminated quote or dangling backslash. -/
def shellUnquoteAux : Bool → List Char → Option (List Char)
  | false, [] => some []
  | false, c :: rest =>
    if c = '\\' then
      match rest with
      | [] => none
      | c2 :: rest2 => (shellUnquoteAux false rest2).map (c2 :: ·)
    else if c = '\'' then shellUnquoteAux true rest
    else (shellUnquoteAux false rest).map (c :: ·)
  | true, [] => none
  | true, c :: rest =>
    if c = '\'' then shellUnquoteAux false rest
    else (shellUnquoteAux true rest).map (c :: ·)

/-- Parse a shell word back to the raw string. -/
def shellUnquote (s : String) : Option String :=
  (shellUnquoteAux false s.data).map String.mk

/-! ## Concrete fixtures used by examples and witnesses -/

/-- Example recording tree: camera `cam`, date `2025-06-15`, hour `12`, with
segments at `12:00:00` and `12:00:30`. -/
def exTree : RecTree :=
  [⟨"2025-06-15", [⟨"12", [("cam", ["00.00.mp4", "00.30.mp4"])]⟩]⟩]

/-- `2025-06-15 12:00:00` (UTC). -/
def exStart : PyDateTime := ⟨2025, 6, 15, 12, 0, 0⟩

/-- `2025-06-15 12:00:30` (UTC). -/
def exEnd : PyDateTime := ⟨2025, 6, 15, 12, 0, 30⟩

/-! ## Helper lemmas -/

theorem PyDateTime.pyLt_iff (a b : PyDateTime) :
    a.pyLt b = true ↔
      (a.year < b.year ∨ (a.year = b.year ∧
        (a.month < b.month ∨ (a.month = b.month ∧
          (a.day < b.day ∨ (a.day = b.day ∧
            (a.hour < b.hour ∨ (a.hour = b.hour ∧
              (a.minute < b.minute ∨ (a.minute = b.minute ∧
                a.second < b.second)))))))))) := by
  simp [PyDateTime.pyLt]

theorem PyDate.pyLe_iff (a b : PyDate) :
    a.pyLe b = true ↔
      (a.year < b.year ∨ (a.year = b.year ∧
        (a.month < b.month ∨ (a.month = b.month ∧
          (a.day < b.day ∨ a.day = b.day))))) := by
  cases a; cases b
  simp [PyDate.pyLe, PyDate.pyLt, PyDate.mk.injEq]
  omega

theorem PyDateTime.pyLt_irrefl (t : PyDateTime) : t.pyLt t = false := by
  rw [Bool.eq_false_iff]
  intro h
  rw [PyDateTime.pyLt_iff] at h
  omega

theorem PyDateTime.pyLt_asymm {a b : PyDateTime} (h : a.pyLt b = true) :
    b.pyLt a = false := by
  rw [Bool.eq_false_iff]
  intro h2
  rw [PyDateTime.pyLt_iff] at h h2
  omega

theorem PyDateTime.ne_of_pyLt {a b : PyDateTime} (h : a.pyLt b = true) :
    a ≠ b := by
  intro heq
  rw [heq, PyDateTime.pyLt_irrefl] at h
  exact Bool.false_ne_true h

theorem PyDateTime.pyGe_self (t : PyDateTime) : t.pyGe t = true := by
  simp [PyDateTime.pyGe]

theorem PyDateTime.pyGe_eq_false_of_pyLt {a b : PyDateTime}
    (h : a.pyLt b = true) : a.pyGe b = false := by
  simp [PyDateTime.pyGe, PyDateTime.pyLt_asymm h, PyDateTime.ne_of_pyLt h]

theorem PyDateTime.dateOf_pyLe_of_pyLt {a b : PyDateTime}
    (h : a.pyLt b = true) : a.dateOf.pyLe b.dateOf = true := by
  rw [PyDateTime.pyLt_iff] at h
  rw [PyDate.pyLe_iff]
  simp only [PyDateTime.dateOf]
  omega

theorem PyDate.year_le_of_pyLe {a b : PyDate} (h : a.pyLe b = true) :
    a.year ≤ b.year := by
  rw [PyDate.pyLe_iff] at h
  omega

theorem mem_dateRange_self {s e : PyDate} (h : s.pyLe e = true) :
    s ∈ dateRange s e := by
  have hy : s.year ≤ e.year := PyDate.year_le_of_pyLe h
  obtain ⟨k, hk⟩ : ∃ k, 366 * (e.year + 1 - s.year) = k + 1 := by
    refine ⟨366 * (e.year + 1 - s.year) - 1, ?_⟩
    omega
  rw [dateRange, hk, dateRangeAux, if_pos h]
  exact List.mem_cons_self _ _

theorem should_skip_timestamp_empty (tz : PyDateTime → PyDateTime)
    (ts : PyDateTime) : should_skip_timestamp tz ts [] [] = false := by
  simp [should_skip_timestamp]

/-! ## Helper lemmas -/

theorem matchFilename_shape {fn : String} {p : Nat × Nat}
    (h : matchFilename fn = some p) :
    ∃ c1 c2 c3 c4, fn.data = [c1, c2, '.', c3, c4, '.', 'm', 'p', '4'] := by
  unfold matchFilename at h
  split at h
  · next c1 c2 c3 c4 heq => exact ⟨c1, c2, c3, c4, heq⟩
  · exact absurd h (by simp)

theorem endsWithMp4_of_matchFilename {fn : String} {p : Nat × Nat}
    (h : matchFilename fn = some p) : endsWithMp4 fn = true := by
  obtain ⟨c1, c2, c3, c4, hshape⟩ := matchFilename_shape h
  unfold endsWithMp4
  rw [hshape]
  rfl

theorem parse_components_hour {dd hd : String} {y mo d h : Int}
    (hpc : parse_components dd hd = some (y, mo, d, h)) :
    pyInt? hd = some h := by
  unfold parse_components at hpc
  split at hpc
  · next ys ms ds heq =>
    split at hpc
    · next h1 h2 h3 h4 => simp_all
    · exact absurd hpc (by simp)
  · exact absurd hpc (by simp)

theorem parse_file_timestamp_hour_isSome {dd hd fn : String} {ts : PyDateTime}
    (h : parse_file_timestamp dd hd fn = some ts) :
    (pyInt? hd).isSome = true := by
  unfold parse_file_timestamp at h
  split at h
  · exact absurd h (by simp)
  · next mi se heq =>
    split at h
    · exact absurd h (by simp)
    · next y mo d hh heq2 =>
      rw [parse_components_hour heq2]
      rfl

theorem parse_file_timestamp_mp4 {dd hd fn : String} {ts : PyDateTime}
    (h : parse_file_timestamp dd hd fn = some ts) :
    endsWithMp4 fn = true := by
  unfold parse_file_timestamp at h
  split at h
  · exact absurd h (by simp)
  · next mi se heq => exact endsWithMp4_of_matchFilename heq

theorem encode_timelapse_run_at_none (run : HWAccel → Bool) :
    encode_timelapse_run run HWAccel.NONE = ([HWAccel.NONE], run HWAccel.NONE) := by
  rw [encode_timelapse_run]
  cases h : run HWAccel.NONE <;> simp [h]

theorem encode_frames_run_at_some_none (run : Option HWAccel → Bool) :
    encode_frames_to_video_run run (some HWAccel.NONE) =
      ([some HWAccel.NONE], run (some HWAccel.NONE)) := by
  rw [encode_frames_to_video_run]
  cases h : run (some HWAccel.NONE) <;> simp [h, hwTruthyNotNone]

theorem encode_frames_run_at_none (run : Option HWAccel → Bool) :
    encode_frames_to_video_run run none = ([none], run none) := by
  rw [encode_frames_to_video_run]
  cases h : run none <;> simp [h, hwTruthyNotNone]

theorem create_timelapse_avg_zero {probe : SegPath → ℚ} {files : List SegPath}
    (hne : files ≠ []) (hz : ∀ f ∈ files, probe f = 0) :
    create_timelapse_avg probe files = 0 := by
  unfold create_timelapse_avg avg_file_duration
  have hs : (files.take (min 5 files.length)).map probe ≠ [] := by
    simp only [ne_eq, List.map_eq_nil_iff, List.take_eq_nil_iff]
    rcases files with - | ⟨f, fs⟩
    · exact absurd rfl hne
    · simp
  rw [if_neg hs]
  have hsum : ((files.take (min 5 files.length)).map probe).sum = 0 := by
    apply List.sum_eq_zero
    intro x hx
    obtain ⟨f, hf, rfl⟩ := List.mem_map.mp hx
    exact hz f (List.mem_of_mem_take hf)
  rw [hsum, zero_div]

theorem speedup_zero_of_probe_zero {probe : SegPath → ℚ} {files : List SegPath}
    (target : ℚ) (hne : files ≠ []) (hz : ∀ f ∈ files, probe f = 0) :
    speedup_of probe files target = 0 := by
  unfold speedup_of
  rw [create_timelapse_avg_zero hne hz, mul_zero, zero_div]

theorem strategy_concat_of_probe_zero {probe : SegPath → ℚ} {files : List SegPath}
    (target : ℚ) (hne : files ≠ []) (hz : ∀ f ∈ files, probe f = 0) :
    create_timelapse_strategy probe files target = StrategyKind.ConcatRetime := by
  unfold create_timelapse_strategy
  rw [speedup_zero_of_probe_zero target hne hz]
  norm_num

theorem shellUnquoteAux_true_quote (rest : List Char) :
    shellUnquoteAux true ('\'' :: rest) = shellUnquoteAux false rest := by
  rw [shellUnquoteAux.eq_def]
  simp

theorem shellUnquoteAux_true_other {c : Char} (hc : c ≠ '\'') (rest : List Char) :
    shellUnquoteAux true (c :: rest) =
      (shellUnquoteAux true rest).map (c :: ·) := by
  rw [shellUnquoteAux.eq_def]
  simp [hc]

theorem shellUnquoteAux_false_backslash (c : Char) (rest : List Char) :
    shellUnquoteAux false ('\\' :: c :: rest) =
      (shellUnquoteAux false rest).map (c :: ·) := by
  rw [shellUnquoteAux.eq_def]
  simp

theorem shellUnquoteAux_false_quote (rest : List Char) :
    shellUnquoteAux false ('\'' :: rest) = shellUnquoteAux true rest := by
  rw [shellUnquoteAux.eq_def]
  simp

theorem shellUnquoteAux_escape (s rest : List Char) :
    shellUnquoteAux true (escapeChars s ++ ('\'' :: rest)) =
      (shellUnquoteAux false rest).map (s ++ ·) := by
  induction s with
  | nil =>
    rw [escapeChars, List.nil_append, shellUnquoteAux_true_quote]
    cases h : shellUnquoteAux false rest <;> simp [h]
  | cons c cs ih =>
    by_cases hc : c = '\''
    · subst hc
      rw [escapeChars, if_pos rfl]
      simp only [List.cons_append]
      rw [shellUnquoteAux_true_quote, shellUnquoteAux_false_backslash,
        shellUnquoteAux_false_quote, ih]
      cases h : shellUnquoteAux false rest <;> simp [h]
    · rw [escapeChars, if_neg hc]
      simp only [List.cons_append]
      rw [shellUnquoteAux_true_other hc, ih]
      cases h : shellUnquoteAux false rest <;> simp [h]

/-! ## Claim theorems -/

/-- C1: `create_timelapse` selects the strategy family by the single
threshold `speedup >= 30` on the computed ratio `sourceDuration /
targetDuration`: for every non-empty input list and positive target
duration, `speedup >= 30` takes the high-speedup frame-based path and
`speedup < 30` takes the concatenate-then-retime path; in particular a
speedup of exactly `29.999` selects ConcatRetime and exactly `30.0`
selects the frame-based family. -/
theorem c1_speedup_threshold_selects_family (probe : SegPath → ℚ)
    (input_files : List SegPath) (target_duration : ℚ)
    (hne : input_files ≠ []) (hpos : 0 < target_duration) :
    (30 ≤ speedup_of probe input_files target_duration →
      create_timelapse_strategy probe input_files target_duration =
        StrategyKind.FrameExtract) ∧
    (speedup_of probe input_files target_duration < 30 →
      create_timelapse_strategy probe input_files target_duration =
        StrategyKind.ConcatRetime) ∧
    (speedup_of probe input_files target_duration = 29999 / 1000 →
      create_timelapse_strategy probe input_files target_duration =
        StrategyKind.ConcatRetime) ∧
    (speedup_of probe input_files target_duration = 30 →
      create_timelapse_strategy probe input_files target_duration =
        StrategyKind.FrameExtract) := by
  refine ⟨?_, ?_, ?_, ?_⟩ <;> intro h <;>
    unfold create_timelapse_strategy
  · rw [if_pos h]
  · rw [if_neg (not_le.mpr h)]
  · rw [if_neg (by rw [h]; norm_num)]
  · rw [if_pos (by rw [h])]

/-- Witness for C1: one 10-second file with a 60-second target gives
speedup 1/6 < 30, so the concat path is selected. -/
theorem c1_speedup_threshold_witness :
    (([("2025-06-15", "12", "cam", "00.00.mp4")] : List SegPath) ≠ []) ∧
    (0 : ℚ) < 60 ∧
    create_timelapse_strategy (fun _ => 10)
      [("2025-06-15", "12", "cam", "00.00.mp4")] 60 =
      StrategyKind.ConcatRetime := by
  refine ⟨by simp, by norm_num, ?_⟩
  exact (c1_speedup_threshold_selects_family (fun _ => 10)
    [("2025-06-15", "12", "cam", "00.00.mp4")] 60 (by simp) (by norm_num)).2.1
    (by norm_num [speedup_of, create_timelapse_avg, avg_file_duration])

/-- C2: `HourRange.contains` implements inclusive-inclusive semantics with
midnight wrap: for hours and bounds in `0..23`, when `a <= b` containment
is `a <= h <= b`, and when `a > b` containment is `h >= a or h <= b`. -/
theorem c2_hour_range_contains_semantics (a b h : Int)
    (ha : 0 ≤ a ∧ a ≤ 23) (hb : 0 ≤ b ∧ b ≤ 23) (hh : 0 ≤ h ∧ h ≤ 23) :
    (a ≤ b → (HourRange.contains ⟨a, b⟩ h = true ↔ (a ≤ h ∧ h ≤ b))) ∧
    (a > b → (HourRange.contains ⟨a, b⟩ h = true ↔ (h ≥ a ∨ h ≤ b))) := by
  constructor <;> intro hab
  · simp [HourRange.contains, hab]
  · simp [HourRange.contains, not_le.mpr hab]

/-- Witness for C2: the wrapping range 22-6 contains hour 23. -/
theorem c2_hour_range_contains_witness :
    ((0 : Int) ≤ 22 ∧ (22 : Int) ≤ 23) ∧ ((22 : Int) > 6) ∧
    HourRange.contains ⟨22, 6⟩ 23 = true := by
  refine ⟨by norm_num, by norm_num, ?_⟩
  exact ((c2_hour_range_contains_semantics 22 6 23 (by norm_num) (by norm_num)
    (by norm_num)).2 (by norm_num)).mpr (by norm_num)

/-- C3: `find_recording_files` respects the half-open window `[start, end)`.
Part 1: a tree entry in canonical position whose parsed timestamp equals
`window.start` is included (with no calendar rules). Part 2: no returned
entry parses to `window.end`, for any tree and any calendar rules. Part 3:
the concrete example — segments at `12:00:00` and `12:00:30` with window
`[12:00:00, 12:00:30)` yield exactly the `12:00:00` segment. -/
theorem c3_locator_half_open_window :
    (∀ (tz : PyDateTime → PyDateTime) (tree : RecTree)
       (camera dd hdname fn : String) (start end_ : PyDateTime)
       (hours : List HourDir) (hd : HourDir) (files : List String),
       parse_file_timestamp dd hdname fn = some start →
       dd = formatDate start.dateOf →
       lookupDate tree dd = some hours →
       hd ∈ hours → hd.name = hdname →
       lookupCam hd.cameras camera = some files →
       fn ∈ files →
       start.pyLt end_ = true →
       (dd, hdname, camera, fn) ∈
         find_recording_files tz tree camera start end_ [] []) ∧
    (∀ (tz : PyDateTime → PyDateTime) (tree : RecTree) (camera : String)
       (start end_ : PyDateTime) (sd : List Nat) (sh : List HourRange)
       (e : SegPath),
       e ∈ find_recording_files tz tree camera start end_ sd sh →
       parse_file_timestamp e.1 e.2.1 e.2.2.2 ≠ some end_) ∧
    (find_recording_files id exTree "cam" exStart exEnd [] [] =
       [("2025-06-15", "12", "cam", "00.00.mp4")]) := by
  refine ⟨?_, ?_, ?_⟩
  · intro tz tree camera dd hdname fn start end_ hours hd files
      hparse hdd hdate hmem hname hcam hfile hlt
    unfold find_recording_files
    rw [List.mem_flatMap]
    refine ⟨start.dateOf,
      mem_dateRange_self (PyDateTime.dateOf_pyLe_of_pyLt hlt), ?_⟩
    unfold filesForDate
    rw [← hdd]
    simp only [hdate]
    rw [List.mem_flatMap]
    refine ⟨hd, (List.mem_insertionSort _).mpr hmem, ?_⟩
    have hint : (pyInt? hd.name).isSome = true := by
      rw [hname]; exact parse_file_timestamp_hour_isSome hparse
    simp only [hint, if_true]
    simp only [hcam]
    rw [List.mem_filterMap]
    refine ⟨fn, ?_, ?_⟩
    · exact (List.mem_insertionSort _).mpr
        (List.mem_filter.mpr ⟨hfile, parse_file_timestamp_mp4 hparse⟩)
    · rw [hname, hparse]
      simp only [PyDateTime.pyLt_irrefl start,
        PyDateTime.pyGe_eq_false_of_pyLt hlt, Bool.or_self,
        should_skip_timestamp_empty, if_false]
      simp
  · intro tz tree camera start end_ sd sh e he hpe
    unfold find_recording_files at he
    rw [List.mem_flatMap] at he
    obtain ⟨d, -, he⟩ := he
    unfold filesForDate at he
    cases hld : lookupDate tree (formatDate d) with
    | none => rw [hld] at he; simp at he
    | some hours =>
      simp only [hld] at he
      rw [List.mem_flatMap] at he
      obtain ⟨hdd, -, he⟩ := he
      by_cases hint : (pyInt? hdd.name).isSome = true
      · simp only [hint, if_true] at he
        cases hlc : lookupCam hdd.cameras camera with
        | none => rw [hlc] at he; simp at he
        | some files =>
          simp only [hlc] at he
          rw [List.mem_filterMap] at he
          obtain ⟨fn, -, hsome⟩ := he
          cases hp : parse_file_timestamp (formatDate d) hdd.name fn with
          | none => rw [hp] at hsome; simp at hsome
          | some ts =>
            simp only [hp] at hsome
            split at hsome
            · exact absurd hsome (by simp)
            · next hcond =>
              split at hsome
              · exact absurd hsome (by simp)
              · have he2 : e = (formatDate d, hdd.name, camera, fn) :=
                  (Option.some.inj hsome).symm
                subst he2
                simp only at hpe
                rw [hp] at hpe
                have hts : ts = end_ := Option.some.inj hpe
                subst hts
                simp [PyDateTime.pyGe_self] at hcond
      · simp only [hint, if_false] at he
        simp at he
  · decide

/-- Witness for C3: the inclusion part applied to the concrete example tree
puts the `12:00:00` segment in the result. -/
theorem c3_locator_half_open_window_witness :
    ("2025-06-15", "12", "cam", "00.00.mp4") ∈
      find_recording_files id exTree "cam" exStart exEnd [] [] :=
  c3_locator_half_open_window.1 id exTree "cam" "2025-06-15" "12" "00.00.mp4"
    exStart exEnd
    [⟨"12", [("cam", ["00.00.mp4", "00.30.mp4"])]⟩]
    ⟨"12", [("cam", ["00.00.mp4", "00.30.mp4"])]⟩
    ["00.00.mp4", "00.30.mp4"]
    (by decide) (by decide) (by decide) (by decide) (by decide)
    (by decide) (by decide) (by decide)

/-- Counterexample for C4: with `framesNeeded = 1 < segmentCount = 2` the
index computation divides by zero (Python raises `ZeroDivisionError`,
embedded as `none`), so no sampled index list with first index 0 and last
index `segmentCount - 1` exists — the claim fails for `framesNeeded = 1`. -/
theorem c4_sampling_counterexample :
    sampleIndices 2 1 = none ∧
    ¬∃ l, sampleIndices 2 1 = some l ∧ l.head? = some 0 ∧
      l.getLast? = some 1 := by
  refine ⟨rfl, ?_⟩
  rintro ⟨l, hl, -, -⟩
  simp [sampleIndices] at hl

/-- C4 (amended): for `2 <= framesNeeded < segmentCount` the parallel
strategy samples indices `floor(i * (segmentCount-1) / (framesNeeded-1))`
for `i in 0..framesNeeded-1`, so the first sampled index is 0 and the last
is `segmentCount - 1` — never a prefix-only sample. (The original claim,
stated for every `framesNeeded < segmentCount`, fails at
`framesNeeded = 1`, where the computation divides by zero.) -/
theorem c4_sampling_full_span_amended (n fn : Nat) (h2 : 2 ≤ fn)
    (hlt : fn < n) :
    timelapse_frames_sampling n fn =
      some ((List.range fn).map fun i => i * (n - 1) / (fn - 1)) ∧
    ((List.range fn).map fun i => i * (n - 1) / (fn - 1)).head? = some 0 ∧
    ((List.range fn).map fun i => i * (n - 1) / (fn - 1)).getLast? =
      some (n - 1) := by
  refine ⟨?_, ?_, ?_⟩
  · unfold timelapse_frames_sampling
    rw [if_pos ⟨by simp [Nat.not_lt.mpr (Nat.le_of_lt hlt)], hlt⟩]
    unfold sampleIndices
    rw [if_neg (by omega), if_neg (by omega)]
  · obtain ⟨k, rfl⟩ : ∃ k, fn = k + 1 := ⟨fn - 1, by omega⟩
    rw [List.range_succ_eq_map]
    simp
  · obtain ⟨k, rfl⟩ : ∃ k, fn = k + 2 := ⟨fn - 2, by omega⟩
    rw [show k + 2 = (k + 1) + 1 from rfl, List.range_succ, List.map_append]
    simp only [List.map_cons, List.map_nil, List.getLast?_concat]
    congr 1
    rw [show k + 2 - 1 = k + 1 from rfl]
    exact Nat.mul_div_cancel_left _ (by omega)

/-- Witness for C4: 10 files, 4 frames needed — sampled indices
`[0, 3, 6, 9]` span the full range. -/
theorem c4_sampling_full_span_witness :
    timelapse_frames_sampling 10 4 =
      some ((List.range 4).map fun i => i * (10 - 1) / (4 - 1)) ∧
    ((List.range 4).map fun i => i * (10 - 1) / (4 - 1)).head? = some 0 ∧
    ((List.range 4).map fun i => i * (10 - 1) / (4 - 1)).getLast? =
      some (10 - 1) :=
  c4_sampling_full_span_amended 10 4 (by norm_num) (by norm_num)

/-- C5: a failed hardware-accelerated encode is retried exactly once with
acceleration forced to NONE, and never deeper: the attempt sequence is
`[hw, NONE]` with the final result that of the software run; a failure
that occurs with acceleration already NONE (or Python `None`) is never
retried. Stated for both `encode_timelapse` and `encode_frames_to_video`. -/
theorem c5_hw_fallback_single_retry :
    (∀ (run : HWAccel → Bool) (hw : HWAccel), hw ≠ HWAccel.NONE →
      run hw = false →
      encode_timelapse_run run hw = ([hw, HWAccel.NONE], run HWAccel.NONE)) ∧
    (∀ run : HWAccel → Bool, run HWAccel.NONE = false →
      encode_timelapse_run run HWAccel.NONE = ([HWAccel.NONE], false)) ∧
    (∀ (run : Option HWAccel → Bool) (a : HWAccel), a ≠ HWAccel.NONE →
      run (some a) = false →
      encode_frames_to_video_run run (some a) =
        ([some a, some HWAccel.NONE], run (some HWAccel.NONE))) ∧
    (∀ run : Option HWAccel → Bool, run (some HWAccel.NONE) = false →
      encode_frames_to_video_run run (some HWAccel.NONE) =
        ([some HWAccel.NONE], false)) ∧
    (∀ run : Option HWAccel → Bool, run none = false →
      encode_frames_to_video_run run none = ([none], false)) := by
  refine ⟨?_, ?_, ?_, ?_, ?_⟩
  · intro run hw hne hfail
    rw [encode_timelapse_run]
    simp only [hfail, if_true, dif_neg hne, encode_timelapse_run_at_none]
  · intro run hfail
    rw [encode_timelapse_run_at_none, hfail]
  · intro run a hne hfail
    rw [encode_frames_to_video_run]
    have ht : hwTruthyNotNone (some a) = true := by
      simp [hwTruthyNotNone, hne]
    simp only [hfail, if_true, dif_pos ht, encode_frames_run_at_some_none]
  · intro run hfail
    rw [encode_frames_run_at_some_none, hfail]
  · intro run hfail
    rw [encode_frames_run_at_none, hfail]

/-- Witness for C5: a QSV encode whose runs always fail attempts exactly
`[QSV, NONE]` and reports failure. -/
theorem c5_hw_fallback_witness :
    encode_timelapse_run (fun _ => false) HWAccel.QSV =
      ([HWAccel.QSV, HWAccel.NONE], false) :=
  c5_hw_fallback_single_retry.1 (fun _ => false) HWAccel.QSV
    (by decide) rfl

/-- Counterexample for C6: for a non-empty input list where every probe
fails (`get_video_duration` returns 0.0), the sample list is non-empty, so
the `else 10.0` fallback is NOT taken: the average degrades to 0.0 (not
10.0), the speedup to 0, and the concat path is selected — contradicting
the claim that `avgSegmentDuration` degrades to the fallback constant. -/
theorem c6_probe_failure_counterexample :
    create_timelapse_avg (fun _ => 0)
      [("2025-06-15", "12", "cam", "00.00.mp4"),
       ("2025-06-15", "12", "cam", "00.10.mp4"),
       ("2025-06-15", "12", "cam", "00.20.mp4")] = 0 ∧
    (0 : ℚ) ≠ 10 ∧
    speedup_of (fun _ => 0)
      [("2025-06-15", "12", "cam", "00.00.mp4"),
       ("2025-06-15", "12", "cam", "00.10.mp4"),
       ("2025-06-15", "12", "cam", "00.20.mp4")] 60 = 0 ∧
    create_timelapse_strategy (fun _ => 0)
      [("2025-06-15", "12", "cam", "00.00.mp4"),
       ("2025-06-15", "12", "cam", "00.10.mp4"),
       ("2025-06-15", "12", "cam", "00.20.mp4")] 60 =
      StrategyKind.ConcatRetime := by
  refine ⟨?_, by norm_num, ?_, ?_⟩
  · exact create_timelapse_avg_zero (by simp) (fun f _ => rfl)
  · exact speedup_zero_of_probe_zero 60 (by simp) (fun f _ => rfl)
  · exact strategy_concat_of_probe_zero 60 (by simp) (fun f _ => rfl)

/-- C6 (amended): the `10.0` fallback applies only when the sample list is
empty, i.e. when the input list is empty. When probing fails on every
sampled file of a non-empty input (each probe yielding 0.0), the average
becomes 0.0, the speedup 0, and the concat path is selected; the run is
not aborted. -/
theorem c6_probe_failure_amended (probe : SegPath → ℚ) (files : List SegPath)
    (target : ℚ) (hne : files ≠ []) (hz : ∀ f ∈ files, probe f = 0) :
    create_timelapse_avg probe files = 0 ∧
    speedup_of probe files target = 0 ∧
    create_timelapse_strategy probe files target = StrategyKind.ConcatRetime ∧
    (∀ p : SegPath → ℚ, create_timelapse_avg p [] = 10) := by
  refine ⟨create_timelapse_avg_zero hne hz,
    speedup_zero_of_probe_zero target hne hz,
    strategy_concat_of_probe_zero target hne hz, ?_⟩
  intro p
  unfold create_timelapse_avg avg_file_duration
  simp

/-- Witness for C6: one file whose probe fails, target 60s. -/
theorem c6_probe_failure_witness :
    (([("2025-06-15", "12", "cam", "00.00.mp4")] : List SegPath) ≠ []) ∧
    create_timelapse_avg (fun _ => 0)
      [("2025-06-15", "12", "cam", "00.00.mp4")] = 0 ∧
    create_timelapse_strategy (fun _ => 0)
      [("2025-06-15", "12", "cam", "00.00.mp4")] 60 =
      StrategyKind.ConcatRetime := by
  have h := c6_probe_failure_amended (fun _ => 0)
    [("2025-06-15", "12", "cam", "00.00.mp4")] 60 (by simp)
    (fun f _ => rfl)
  exact ⟨by simp, h.1, h.2.2.1⟩

/-- C7: the clip-mode segment finder equals the timelapse locator with a
no-op calendar rule: `find_overlapping_segments` returns exactly the list
of `find_recording_files` with empty `skip_days` and empty `skip_hours`
(equivalently, with the optional parameters passed as empty). -/
theorem c7_clip_finder_equals_locator_noop (tz : PyDateTime → PyDateTime)
    (tree : RecTree) (camera : String) (start end_ : PyDateTime) :
    find_overlapping_segments tz tree camera start end_ =
      find_recording_files tz tree camera start end_ [] [] ∧
    find_overlapping_segments tz tree camera start end_ =
      find_recording_files_opt tz tree camera start end_ (some []) (some []) :=
  ⟨rfl, rfl⟩

/-- C8: `parse_file_timestamp` is total and returns `none` on every parse
failure: non-matching filename pattern, integer-parse failure of any
component, or fields that do not form a valid calendar datetime. The
closed conjuncts check the spec's examples, including minute 61 and a
wrong extension. -/
theorem c8_parse_timestamp_total_none_on_failure
    (date_dir hour_dir filename : String) :
    (matchFilename filename = none →
      parse_file_timestamp date_dir hour_dir filename = none) ∧
    (parse_components date_dir hour_dir = none →
      parse_file_timestamp date_dir hour_dir filename = none) ∧
    (∀ (mi se : Nat) (y mo d h : Int),
      matchFilename filename = some (mi, se) →
      parse_components date_dir hour_dir = some (y, mo, d, h) →
      validDateTime y mo d h mi se = false →
      parse_file_timestamp date_dir hour_dir filename = none) ∧
    parse_file_timestamp "2025-12-01" "14" "xx.yy.mp4" = none ∧
    parse_file_timestamp "2025-12-01" "14" "61.00.mp4" = none ∧
    parse_file_timestamp "2025-12-01" "14" "30.00.mkv" = none := by
  refine ⟨?_, ?_, ?_, by decide, by decide, by decide⟩
  · intro h
    unfold parse_file_timestamp
    rw [h]
  · intro h
    unfold parse_file_timestamp
    cases hm : matchFilename filename with
    | none => rfl
    | some p =>
      cases p with
      | mk mi se => rw [h]
  · intro mi se y mo d h hm hc hv
    unfold parse_file_timestamp
    rw [hm, hc]
    simp [hv]

/-- Witness for C8: the invalid filename `xx.yy.mp4` parses to `none`. -/
theorem c8_parse_timestamp_witness :
    matchFilename "xx.yy.mp4" = none ∧
    parse_file_timestamp "2000-01-01" "00" "xx.yy.mp4" = none :=
  ⟨by decide,
   (c8_parse_timestamp_total_none_on_failure "2000-01-01" "00" "xx.yy.mp4").1
     (by decide)⟩

/-- C9: concat-manifest escaping round-trips: the manifest line is
`file '<escaped>'` with each single quote of the path replaced by the
shell idiom, and reading the quoted field back under the shell
single-quoting rule reconstructs the original path exactly. -/
theorem c9_manifest_escaping_roundtrip (p : String) :
    manifest_line p = "file " ++ manifest_quoted_field p ∧
    shellUnquote (manifest_quoted_field p) = some p := by
  constructor
  · unfold manifest_line manifest_quoted_field
    rw [← String.append_assoc]
    rfl
  · unfold shellUnquote manifest_quoted_field escapeSQ
    have hdata : ("'" ++ String.mk (escapeChars p.data) ++ "'").data =
        '\'' :: (escapeChars p.data ++ ('\'' :: [])) := by
      rw [String.data_append, String.data_append]
      rfl
    rw [hdata, shellUnquoteAux_false_quote, shellUnquoteAux_escape]
    simp [shellUnquoteAux]

/-- C10: under `2 <= framesNeeded < segmentCount` the sampled-index
division is well-defined and every index lies in `[0, segmentCount-1]`;
for `framesNeeded = 1` (which arises whenever
`targetDuration * outputFps < 2` while at least 1) the division-by-zero
error branch is reachable. -/
theorem c10_sample_division_guard :
    (∀ n fn : Nat, 2 ≤ fn → fn < n →
      ∃ l, sampleIndices n fn = some l ∧ ∀ i ∈ l, i ≤ n - 1) ∧
    (∀ n : Nat, 2 ≤ n → sampleIndices n 1 = none) ∧
    (∀ td fps : ℚ, 1 ≤ td * fps → td * fps < 2 →
      frames_needed_of td fps = 1) := by
  refine ⟨?_, ?_, ?_⟩
  · intro n fn h2 hlt
    refine ⟨(List.range fn).map fun i => i * (n - 1) / (fn - 1), ?_, ?_⟩
    · unfold sampleIndices
      rw [if_neg (by omega), if_neg (by omega)]
    · intro i hi
      obtain ⟨j, hj, rfl⟩ := List.mem_map.mp hi
      have hj' : j ≤ fn - 1 := by
        have := List.mem_range.mp hj
        omega
      calc j * (n - 1) / (fn - 1)
          ≤ (fn - 1) * (n - 1) / (fn - 1) :=
            Nat.div_le_div_right (Nat.mul_le_mul_right _ hj')
        _ = n - 1 := Nat.mul_div_cancel_left _ (by omega)
  · intro n hn
    rfl
  · intro td fps h1 h2
    unfold frames_needed_of
    rw [if_pos (le_trans zero_le_one h1)]
    rw [Int.floor_eq_iff]
    constructor
    · exact_mod_cast h1
    · push_cast
      linarith

/-- Witness for C10: 5 files with 2 frames needed stay in bounds;
`framesNeeded = 1` hits the error branch; `1.5 * 1` truncates to 1. -/
theorem c10_sample_division_guard_witness :
    (∃ l, sampleIndices 5 2 = some l ∧ ∀ i ∈ l, i ≤ 5 - 1) ∧
    sampleIndices 2 1 = none ∧
    frames_needed_of (3 / 2) 1 = 1 :=
  ⟨c10_sample_division_guard.1 5 2 (by norm_num) (by norm_num),
   c10_sample_division_guard.2.1 2 (by norm_num),
   c10_sample_division_guard.2.2 (3 / 2) 1 (by norm_num) (by norm_num)⟩
